import Mathlib

/-!
Shallow embedding of `src/WorkitFullweb/workit/src/components/payment/DepositBox.tsx`.

The component owns transient UI state (amount text, selected method id, processing
flag, error message, success flag), validates the amount and method on submit, and
delegates the deposit to an external collaborator.  Pure handlers are translated to
Lean functions; the async submit handler becomes a function from the pre-state and
the externally chosen deposit outcome to a record holding the settled state, the
trace of external calls, and the state after the scheduled reset timer fires.
JavaScript numbers are modelled as exact rationals; the one place where the
IEEE-754 double range matters (overflow of `parseFloat` to Infinity) is modelled
explicitly by the threshold `jsInfinityThreshold`.
-/

namespace DepositBox

/-- A payment method as consumed from the payment context: id, display name, type
tag, optional last four digits, default flag. -/
structure PaymentMethod where
  id : String
  name : String
  type : String
  last4 : Option String
  isDefault : Bool
deriving DecidableEq

/-- The external environment of the component: the payment-method list from the
payment context, the localization lookup `t`, and whether the optional `onSuccess`
and `onClose` callback props were provided. -/
structure Env where
  paymentMethods : List PaymentMethod
  t : String → String
  hasOnSuccess : Bool
  hasOnClose : Bool

/-- The transient UI state of the component: the five `useState` cells
`amount`, `selectedMethodId`, `isProcessing`, `error`, `success`. -/
structure FormState where
  amount : String
  selectedMethodId : String
  isProcessing : Bool
  error : Option String
  success : Bool
deriving DecidableEq

/-- Model of the JavaScript string method `value.split('.')` on a list of
characters: splits at every dot, keeping empty segments, and always returns at
least one segment. -/
def splitOnDot : List Char → List (List Char)
  | [] => [[]]
  | c :: rest =>
    if c = '.' then [] :: splitOnDot rest
    else
      match splitOnDot rest with
      | [] => [[c]]
      | p :: ps => (c :: p) :: ps

/-- Model of `e.target.value.replace(/[^0-9.]/g, '')`: keep only the decimal
digits and the decimal point. -/
def stripAmount (raw : String) : List Char :=
  raw.toList.filter (fun c => c.isDigit || c == '.')

/-- Embedding of `handleAmountChange`.  `current` is the current `amount` state,
`raw` is `e.target.value`.  The input is stripped to digits and dots; the handler
returns early (keeping `current`) when the stripped value has more than one dot or
a fractional part longer than two characters, and otherwise stores the stripped
value.  The JavaScript truthiness test `parts[1] && ...` is subsumed by the length
comparison, since a string of length greater than two is non-empty. -/
def handleAmountChange (current raw : String) : String :=
  let value := stripAmount raw
  if 2 < (splitOnDot value).length then current
  else
    match (splitOnDot value)[1]? with
    | some p1 => if 2 < p1.length then current else String.mk value
    | none => String.mk value

theorem splitOnDot_ne_nil (cs : List Char) : splitOnDot cs ≠ [] := by
  cases cs with
  | nil => simp [splitOnDot]
  | cons c rest =>
    simp only [splitOnDot]
    split
    · simp
    · split <;> simp

theorem splitOnDot_no_dot (cs : List Char) (h : '.' ∉ cs) : splitOnDot cs = [cs] := by
  induction cs with
  | nil => rfl
  | cons c rest ih =>
    have hc : ¬ c = '.' := by
      intro e
      exact h (e ▸ List.mem_cons_self c rest)
    have hr : '.' ∉ rest := fun hm => h (List.mem_cons_of_mem _ hm)
    simp [splitOnDot, hc, ih hr]

theorem splitOnDot_append (a b : List Char) (h : '.' ∉ a) :
    splitOnDot (a ++ '.' :: b) = a :: splitOnDot b := by
  induction a with
  | nil => simp [splitOnDot]
  | cons c a ih =>
    have hc : ¬ c = '.' := by
      intro e
      exact h (e ▸ List.mem_cons_self c a)
    have ha : '.' ∉ a := fun hm => h (List.mem_cons_of_mem _ hm)
    simp only [List.cons_append, splitOnDot, hc, if_false, List.append_eq]
    rw [ih ha]

theorem length_splitOnDot (cs : List Char) : (splitOnDot cs).length = cs.count '.' + 1 := by
  induction cs with
  | nil => rfl
  | cons c rest ih =>
    by_cases hc : c = '.'
    · subst hc
      simp [splitOnDot, List.count_cons, ih]
    · obtain ⟨p, ps, hps⟩ := List.exists_cons_of_ne_nil (splitOnDot_ne_nil rest)
      rw [hps] at ih
      simp only [splitOnDot, hc, if_false, hps, List.count_cons]
      simp only [List.length_cons] at ih ⊢
      simp [ih, hc]

theorem dropWhile_dot_decomp (v : List Char) (h : '.' ∈ v) :
    ∃ a b, v = a ++ '.' :: b ∧ '.' ∉ a ∧ (v.dropWhile (· != '.')).tail = b := by
  induction v with
  | nil => cases h
  | cons c rest ih =>
    by_cases hc : c = '.'
    · subst hc
      refine ⟨[], rest, rfl, by simp, ?_⟩
      simp [List.dropWhile]
    · have hr : '.' ∈ rest := by
        rcases List.mem_cons.mp h with h1 | h2
        · exact absurd h1.symm hc
        · exact h2
      obtain ⟨a, b, hv, hna, hdw⟩ := ih hr
      refine ⟨c :: a, b, by rw [List.cons_append, ← hv], ?_, ?_⟩
      · intro hm
        rcases List.mem_cons.mp hm with h1 | h2
        · exact hc h1.symm
        · exact hna h2
      · have hcb : (c != '.') = true := by simp [hc]
        simpa [List.dropWhile, hcb] using hdw

theorem amount_core (cur : String) (v : List Char) :
    (if 2 < (splitOnDot v).length then cur
     else
       match (splitOnDot v)[1]? with
       | some p1 => if 2 < p1.length then cur else String.mk v
       | none => String.mk v) =
    (if 1 < v.count '.' ∨ 2 < ((v.dropWhile (· != '.')).tail).length then cur
     else String.mk v) := by
  by_cases h1 : 1 < v.count '.'
  · have hlen : 2 < (splitOnDot v).length := by rw [length_splitOnDot]; omega
    rw [if_pos hlen, if_pos (Or.inl h1)]
  · have hlen : ¬ 2 < (splitOnDot v).length := by rw [length_splitOnDot]; omega
    rw [if_neg hlen]
    by_cases h0 : '.' ∈ v
    · obtain ⟨a, b, hv, hna, hdw⟩ := dropWhile_dot_decomp v h0
      have hcnt : v.count '.' = a.count '.' + (b.count '.' + 1) := by
        rw [hv]
        simp [List.count_append, List.count_cons]
      have ha0 : a.count '.' = 0 := List.count_eq_zero.mpr hna
      have hb : '.' ∉ b := by
        refine List.count_eq_zero.mp ?_
        omega
      have hsplit : splitOnDot v = [a, b] := by
        rw [hv, splitOnDot_append a b hna, splitOnDot_no_dot b hb]
      rw [hsplit, hdw]
      by_cases h2 : 2 < b.length
      · simp [h2]
      · simp [h2, h1]
    · have hc0 : v.count '.' = 0 := List.count_eq_zero.mpr h0
      rw [splitOnDot_no_dot v h0]
      have hdw : v.dropWhile (· != '.') = [] := by
        rw [List.dropWhile_eq_nil_iff]
        intro x hx
        simp only [bne_iff_ne, ne_eq, Decidable.not_not]
        by_contra hxe
        exact h0 ((by simpa using hxe : x = '.') ▸ hx)
      simp [hc0, hdw]

/-- Characterization of `handleAmountChange` in the vocabulary of the
specification: the raw input is stripped to digits and dots; the result is kept
unchanged when the stripped value has more than one decimal point or more than two
characters after the first decimal point, and otherwise becomes the stripped
value. -/
theorem handleAmountChange_eq (cur raw : String) :
    handleAmountChange cur raw =
      (if 1 < (stripAmount raw).count '.' ∨
          2 < (((stripAmount raw).dropWhile (· != '.')).tail).length
       then cur else String.mk (stripAmount raw)) := by
  unfold handleAmountChange
  exact amount_core cur (stripAmount raw)

/-- Fold a list of decimal digit characters into the natural number they denote. -/
def digitsToNat (cs : List Char) : Nat :=
  cs.foldl (fun acc c => 10 * acc + (c.toNat - '0'.toNat)) 0

/-- Model of the JavaScript builtin `parseFloat` on the decimal-literal fragment
(an optional integer part, an optional dot, an optional fractional part, then
arbitrary trailing junk): `none` stands for `NaN`, and a parsed value is the exact
rational denoted by the longest digits-and-dot prefix.  Signs, exponents and
leading whitespace never occur in the amount field, whose content is produced by
`handleAmountChange` and hence consists of digits and dots only. -/
def parseAmount (s : String) : Option ℚ :=
  let cs := s.toList
  let intPart := cs.takeWhile Char.isDigit
  match cs.dropWhile Char.isDigit with
  | '.' :: rest =>
    let fracPart := rest.takeWhile Char.isDigit
    if intPart.isEmpty && fracPart.isEmpty then none
    else
      some (mkRat (digitsToNat intPart * 10 ^ fracPart.length + digitsToNat fracPart)
        (10 ^ fracPart.length))
  | _ => if intPart.isEmpty then none else some (mkRat (digitsToNat intPart) 1)

/-- The smallest exact magnitude at which IEEE-754 double rounding (used by
`parseFloat`) overflows to Infinity: the midpoint between the largest finite
double `2 ^ 1024 - 2 ^ 971` and `2 ^ 1024`, which ties to the even candidate
`2 ^ 1024`. -/
def jsInfinityThreshold : ℚ := ((2 ^ 1024 - 2 ^ 970 : ℕ) : ℚ)

/-- An exact rational value is finite as a JavaScript number when rounding it to
double precision does not overflow. -/
def jsFinite (q : ℚ) : Prop :=
  -jsInfinityThreshold < q ∧ q < jsInfinityThreshold

instance (q : ℚ) : Decidable (jsFinite q) := by
  unfold jsFinite
  infer_instance

/-- Outcome of the external `deposit(amount, methodId)` call: resolution, or
rejection carrying the thrown value's optional `message` field. -/
inductive DepositOutcome where
  | ok : DepositOutcome
  | fail (message : Option String) : DepositOutcome
deriving DecidableEq

/-- Externally observable calls made by the submit handler: the `deposit` call,
the `onSuccess` callback, and the `onClose` callback. -/
inductive Ev where
  | depositCall (amount : ℚ) (methodId : String)
  | successCb (amount : ℚ)
  | closeCb
deriving DecidableEq

/-- Embedding of `error.message || t('deposit_error')`: a missing or falsy
(empty) message falls back to the generic localization. -/
def failureMessage (env : Env) (message : Option String) : String :=
  match message with
  | some m => if m = "" then env.t "deposit_error" else m
  | none => env.t "deposit_error"

/-- Everything observable about one run of `handleSubmit`: the state once the
handler has settled (after the `finally` clause), the external calls it made, a
marker recording whether `setIsProcessing(true)` executed, the scheduled reset
delay (if a timer was set), the calls made by the timer body, and the state after
the timer has fired (equal to `settled` when no timer was scheduled). -/
structure SubmitResult where
  settled : FormState
  events : List Ev
  processingSet : Bool
  resetDelayMs : Option Nat
  timerEvents : List Ev
  afterTimer : FormState
deriving DecidableEq

/-- Embedding of `handleSubmit`.  The handler first clears the error; each branch
below records the resulting error field directly.  Validation: parse the amount
and abort with `invalid_amount` when it is `NaN` or not positive; abort with
`select_payment_method` when no method is selected while methods exist.
Otherwise set the processing flag, call `deposit(numAmount, selectedMethodId)`
with the externally determined `outcome`, then on resolution set the success flag,
call `onSuccess` when provided, and schedule a 2000 ms timer that resets the
amount, clears the success flag and calls `onClose` when provided; on rejection
set the error from the thrown message or the fallback.  The `finally` clause
clears the processing flag on every path. -/
def handleSubmit (env : Env) (st : FormState) (outcome : DepositOutcome) : SubmitResult :=
  match parseAmount st.amount with
  | none =>
    let s := { st with error := some (env.t "invalid_amount"), isProcessing := false }
    { settled := s, events := [], processingSet := false,
      resetDelayMs := none, timerEvents := [], afterTimer := s }
  | some numAmount =>
    if numAmount ≤ 0 then
      let s := { st with error := some (env.t "invalid_amount"), isProcessing := false }
      { settled := s, events := [], processingSet := false,
        resetDelayMs := none, timerEvents := [], afterTimer := s }
    else if st.selectedMethodId = "" ∧ 0 < env.paymentMethods.length then
      let s := { st with error := some (env.t "select_payment_method"), isProcessing := false }
      { settled := s, events := [], processingSet := false,
        resetDelayMs := none, timerEvents := [], afterTimer := s }
    else
      match outcome with
      | DepositOutcome.ok =>
        let settled := { st with error := none, success := true, isProcessing := false }
        { settled := settled
          events := Ev.depositCall numAmount st.selectedMethodId ::
            (if env.hasOnSuccess then [Ev.successCb numAmount] else [])
          processingSet := true
          resetDelayMs := some 2000
          timerEvents := if env.hasOnClose then [Ev.closeCb] else []
          afterTimer := { settled with amount := "", success := false } }
      | DepositOutcome.fail msg =>
        let settled := { st with error := some (failureMessage env msg), isProcessing := false }
        { settled := settled
          events := [Ev.depositCall numAmount st.selectedMethodId]
          processingSet := true
          resetDelayMs := none
          timerEvents := []
          afterTimer := settled }

/-- Embedding of the submit control predicate
`disabled={isProcessing || !amount || parseFloat(amount) <= 0}`.  The JavaScript
comparison `NaN <= 0` is false, which the `none` branch reflects. -/
def submitDisabled (st : FormState) : Bool :=
  st.isProcessing || (st.amount == "") ||
    match parseAmount st.amount with
    | some q => decide (q ≤ 0)
    | none => false

/-- The state after mount: empty amount, no error, not processing, not successful,
and the selected method id initialized to the externally flagged default method
when one exists. -/
def initState (env : Env) : FormState :=
  { amount := ""
    selectedMethodId :=
      match env.paymentMethods.find? (fun m => m.isDefault) with
      | some m => m.id
      | none => ""
    isProcessing := false
    error := none
    success := false }

/-- States the component can be in: the mount state, followed by any interleaving
of amount edits (input rendered only in the form view and enabled only while not
processing), method selection clicks (each rendered entry belongs to the method
list), and submit runs, observed either when the handler settles or after the
scheduled reset timer fires. -/
inductive Reachable (env : Env) : FormState → Prop where
  | init : Reachable env (initState env)
  | input (st : FormState) (raw : String) :
      Reachable env st → st.isProcessing = false → st.success = false →
      Reachable env { st with amount := handleAmountChange st.amount raw }
  | select (st : FormState) (m : PaymentMethod) :
      Reachable env st → m ∈ env.paymentMethods → st.success = false →
      Reachable env { st with selectedMethodId := m.id }
  | submitSettle (st : FormState) (outcome : DepositOutcome) :
      Reachable env st → st.success = false →
      Reachable env (handleSubmit env st outcome).settled
  | submitTimer (st : FormState) (outcome : DepositOutcome) :
      Reachable env st → st.success = false →
      Reachable env (handleSubmit env st outcome).afterTimer

theorem handleSubmit_selected (env : Env) (st : FormState) (o : DepositOutcome) :
    (handleSubmit env st o).settled.selectedMethodId = st.selectedMethodId ∧
    (handleSubmit env st o).afterTimer.selectedMethodId = st.selectedMethodId := by
  unfold handleSubmit
  cases parseAmount st.amount with
  | none => simp
  | some q =>
    by_cases h1 : q ≤ 0
    · simp [h1]
    · by_cases h2 : st.selectedMethodId = "" ∧ 0 < env.paymentMethods.length
      · simp [h1, h2]
      · cases o <;> simp [h1, h2]

theorem handleSubmit_not_processing (env : Env) (st : FormState) (o : DepositOutcome) :
    (handleSubmit env st o).settled.isProcessing = false ∧
    (handleSubmit env st o).afterTimer.isProcessing = false := by
  unfold handleSubmit
  cases parseAmount st.amount with
  | none => simp
  | some q =>
    by_cases h1 : q ≤ 0
    · simp [h1]
    · by_cases h2 : st.selectedMethodId = "" ∧ 0 < env.paymentMethods.length
      · simp [h1, h2]
      · cases o <;> simp [h1, h2]

/-- With an empty method list nothing ever sets the selected method id: the mount
default lookup finds nothing, and no method entry is rendered to click. -/
theorem reachable_selected_empty (env : Env) (h : env.paymentMethods = [])
    (st : FormState) (hr : Reachable env st) : st.selectedMethodId = "" := by
  induction hr with
  | init => simp [initState, h]
  | input st raw _ _ _ ih => simpa using ih
  | select st m _ hm _ _ => rw [h] at hm; cases hm
  | submitSettle st o _ _ ih => rw [(handleSubmit_selected env st o).1]; exact ih
  | submitTimer st o _ _ ih => rw [(handleSubmit_selected env st o).2]; exact ih

/-- Environment with no payment methods, identity localization, no callbacks. -/
def envNoMethods : Env :=
  { paymentMethods := [], t := fun s => s, hasOnSuccess := false, hasOnClose := false }

/-- Environment with no payment methods, identity localization, both callbacks. -/
def envCallbacks : Env :=
  { paymentMethods := [], t := fun s => s, hasOnSuccess := true, hasOnClose := true }

/-- A sample stored card, flagged as the default method. -/
def cardMethod : PaymentMethod :=
  { id := "m1", name := "Card", type := "credit_card", last4 := some "4242", isDefault := true }

/-- Environment listing the one sample method, identity localization. -/
def envOneMethod : Env :=
  { paymentMethods := [cardMethod], t := fun s => s, hasOnSuccess := false, hasOnClose := false }

/-- Form state with amount text "5" and nothing else set. -/
def stateAmount5 : FormState :=
  { amount := "5", selectedMethodId := "", isProcessing := false, error := none, success := false }

/-- Form state with amount text "0" and nothing else set. -/
def stateAmount0 : FormState :=
  { amount := "0", selectedMethodId := "", isProcessing := false, error := none, success := false }

/-- Form state with empty amount text and nothing else set. -/
def stateEmptyAmount : FormState :=
  { amount := "", selectedMethodId := "", isProcessing := false, error := none, success := false }

/-- Form state whose amount text is a bare decimal point. -/
def stateDotAmount : FormState :=
  { amount := ".", selectedMethodId := "", isProcessing := false, error := none, success := false }

/-- Form state caught mid-processing, with a stale error message. -/
def stateProcessing : FormState :=
  { amount := "5", selectedMethodId := "", isProcessing := true, error := some "old", success := false }

/-- An amount text of 310 digits denoting 10 ^ 309, which parseFloat rounds to
Infinity. -/
def bigAmount : String := String.mk ('1' :: List.replicate 309 '0')

/-- Form state holding the overflowing amount text. -/
def stateBigAmount : FormState :=
  { amount := bigAmount, selectedMethodId := "", isProcessing := false, error := none, success := false }

set_option maxRecDepth 100000

/-- C1: for every current amount text and raw input, `handleAmountChange` strips
all characters other than digits and the decimal point from the raw input; when
the stripped result has more than one decimal point or more than two digits after
the decimal point the amount text is kept unchanged, and otherwise it becomes the
stripped result.  In particular "12.345" typed over "12.34" is rejected, and
"1.2.3" typed over "1.2" is rejected. -/
theorem C1_updateAmount :
    (∀ cur raw : String,
      handleAmountChange cur raw =
        (if 1 < (stripAmount raw).count '.' ∨
            2 < (((stripAmount raw).dropWhile (· != '.')).tail).length
         then cur else String.mk (stripAmount raw))) ∧
    handleAmountChange "12.34" "12.345" = "12.34" ∧
    handleAmountChange "1.2" "1.2.3" = "1.2" :=
  ⟨handleAmountChange_eq, by decide, by decide⟩

/-- C2 (amended): for every amount text whose parse is `NaN` or not greater than
zero — in particular "" and "0" — submit sets the invalid-amount error and
aborts: no external call is made and the processing flag is never set.  The code
checks only `isNaN(numAmount) || numAmount <= 0` and not finiteness, so the
amendment drops the word "finite" from the claim. -/
theorem C2_invalid_amount_aborts (env : Env) (st : FormState) (outcome : DepositOutcome)
    (h : ∀ q : ℚ, parseAmount st.amount = some q → q ≤ 0) :
    (handleSubmit env st outcome).settled.error = some (env.t "invalid_amount") ∧
    (handleSubmit env st outcome).events = [] ∧
    (handleSubmit env st outcome).processingSet = false := by
  unfold handleSubmit
  cases hp : parseAmount st.amount with
  | none => simp
  | some q => simp [h q hp]

/-- C2 witness: submitting with amount text "0" sets the invalid-amount error,
makes no external call, and never sets the processing flag. -/
theorem C2_witness :
    (handleSubmit envNoMethods stateAmount0 DepositOutcome.ok).settled.error =
      some "invalid_amount" ∧
    (handleSubmit envNoMethods stateAmount0 DepositOutcome.ok).events = [] ∧
    (handleSubmit envNoMethods stateAmount0 DepositOutcome.ok).processingSet = false := by
  refine C2_invalid_amount_aborts envNoMethods stateAmount0 DepositOutcome.ok ?_
  intro q hq
  have h0 : parseAmount stateAmount0.amount = some 0 := by decide
  rw [h0] at hq
  obtain rfl := Option.some.inj hq
  exact le_refl 0

/-- C2 counterexample: the 310-digit amount text denoting 10 ^ 309 parses to a
value at or beyond the double-overflow threshold, so as a JavaScript number it is
Infinity and not a positive finite number; the claim therefore demands an abort,
yet the code sets the processing flag and invokes the deposit operation. -/
theorem C2_counterexample :
    (∀ q : ℚ, parseAmount bigAmount = some q → ¬ (0 < q ∧ jsFinite q)) ∧
    (handleSubmit envNoMethods stateBigAmount DepositOutcome.ok).processingSet = true ∧
    (handleSubmit envNoMethods stateBigAmount DepositOutcome.ok).events ≠ [] := by
  refine ⟨?_, by decide, by decide⟩
  intro q hq
  have hv : parseAmount bigAmount = some (mkRat (10 ^ 309) 1) := by decide
  rw [hv] at hq
  obtain rfl := Option.some.inj hq
  intro hc
  exact absurd hc.2 (by decide)

/-- C3 (amended): for every state whose amount text parses to a positive number,
when at least one payment method is available and no method is selected, submit
sets the select-payment-method error and makes no external call.  The amount
validation runs first, so the original claim fails whenever the amount is also
invalid. -/
theorem C3_method_required (env : Env) (st : FormState) (outcome : DepositOutcome) (q : ℚ)
    (hq : parseAmount st.amount = some q) (hpos : 0 < q)
    (hsel : st.selectedMethodId = "") (hm : env.paymentMethods ≠ []) :
    (handleSubmit env st outcome).settled.error = some (env.t "select_payment_method") ∧
    (handleSubmit env st outcome).events = [] ∧
    (handleSubmit env st outcome).processingSet = false := by
  unfold handleSubmit
  rw [hq]
  have h1 : ¬ q ≤ 0 := not_le.mpr hpos
  have h2 : st.selectedMethodId = "" ∧ 0 < env.paymentMethods.length :=
    ⟨hsel, List.length_pos.mpr hm⟩
  simp [h1, h2]

/-- C3 witness: amount "5", one available method, none selected: submit yields the
select-payment-method error and makes no external call. -/
theorem C3_witness :
    (handleSubmit envOneMethod stateAmount5 DepositOutcome.ok).settled.error =
      some "select_payment_method" ∧
    (handleSubmit envOneMethod stateAmount5 DepositOutcome.ok).events = [] ∧
    (handleSubmit envOneMethod stateAmount5 DepositOutcome.ok).processingSet = false := by
  refine C3_method_required envOneMethod stateAmount5 DepositOutcome.ok 5 (by decide)
    (by decide) (by decide) (by decide)

/-- C3 counterexample: with one available method, no selection, and empty amount
text, submit yields the invalid-amount error, not the method-required error the
claim demands for every such state. -/
theorem C3_counterexample :
    envOneMethod.paymentMethods ≠ [] ∧
    stateEmptyAmount.selectedMethodId = "" ∧
    (handleSubmit envOneMethod stateEmptyAmount DepositOutcome.ok).settled.error =
      some "invalid_amount" ∧
    (handleSubmit envOneMethod stateEmptyAmount DepositOutcome.ok).settled.error ≠
      some "select_payment_method" := by decide

/-- C4: when validation passes, the success callback is provided, and the deposit
operation resolves, the handler sets the success flag, invokes the success
callback exactly once with the parsed amount, schedules the reset for exactly
2000 ms, after which the amount text is empty, the success flag is cleared, and
the close callback has been invoked exactly once when provided. -/
theorem C4_success (env : Env) (st : FormState) (q : ℚ)
    (hq : parseAmount st.amount = some q) (hpos : 0 < q)
    (hm : st.selectedMethodId ≠ "" ∨ env.paymentMethods = [])
    (hcb : env.hasOnSuccess = true) :
    (handleSubmit env st DepositOutcome.ok).settled.success = true ∧
    (handleSubmit env st DepositOutcome.ok).events.count (Ev.successCb q) = 1 ∧
    (handleSubmit env st DepositOutcome.ok).resetDelayMs = some 2000 ∧
    (handleSubmit env st DepositOutcome.ok).afterTimer.amount = "" ∧
    (handleSubmit env st DepositOutcome.ok).afterTimer.success = false ∧
    (handleSubmit env st DepositOutcome.ok).timerEvents.count Ev.closeCb =
      (if env.hasOnClose then 1 else 0) := by
  unfold handleSubmit
  rw [hq]
  have h1 : ¬ q ≤ 0 := not_le.mpr hpos
  have h2 : ¬ (st.selectedMethodId = "" ∧ 0 < env.paymentMethods.length) := by
    rcases hm with h | h
    · exact fun hc => h hc.1
    · intro hc
      rw [h] at hc
      exact absurd hc.2 (by simp)
  simp only [if_neg h1, if_neg h2]
  cases hoc : env.hasOnClose <;> simp [hcb, hoc, List.count_cons]

/-- C4 witness: amount "5", no methods, both callbacks provided, deposit
resolves. -/
theorem C4_witness :
    (handleSubmit envCallbacks stateAmount5 DepositOutcome.ok).settled.success = true ∧
    (handleSubmit envCallbacks stateAmount5 DepositOutcome.ok).events.count (Ev.successCb 5) = 1 ∧
    (handleSubmit envCallbacks stateAmount5 DepositOutcome.ok).resetDelayMs = some 2000 ∧
    (handleSubmit envCallbacks stateAmount5 DepositOutcome.ok).afterTimer.amount = "" ∧
    (handleSubmit envCallbacks stateAmount5 DepositOutcome.ok).afterTimer.success = false ∧
    (handleSubmit envCallbacks stateAmount5 DepositOutcome.ok).timerEvents.count Ev.closeCb =
      (if envCallbacks.hasOnClose then 1 else 0) :=
  C4_success envCallbacks stateAmount5 5 (by decide) (by decide) (Or.inr rfl) rfl

/-- C5 (amended): when validation passes and the deposit operation fails, the
error message is set to the failure message when a non-empty one is present and
to the generic fallback otherwise, the success callback is never invoked, the
success flag is unchanged, and the processing flag returns to false.  The code
tests the message with JavaScript truthiness, so an empty-string message falls
back, which forces the word "non-empty" into the claim. -/
theorem C5_failure (env : Env) (st : FormState) (q : ℚ) (msg : Option String)
    (hq : parseAmount st.amount = some q) (hpos : 0 < q)
    (hm : st.selectedMethodId ≠ "" ∨ env.paymentMethods = []) :
    (handleSubmit env st (DepositOutcome.fail msg)).settled.error =
      some (failureMessage env msg) ∧
    (∀ a : ℚ, Ev.successCb a ∉ (handleSubmit env st (DepositOutcome.fail msg)).events) ∧
    (handleSubmit env st (DepositOutcome.fail msg)).settled.success = st.success ∧
    (handleSubmit env st (DepositOutcome.fail msg)).settled.isProcessing = false := by
  unfold handleSubmit
  rw [hq]
  have h1 : ¬ q ≤ 0 := not_le.mpr hpos
  have h2 : ¬ (st.selectedMethodId = "" ∧ 0 < env.paymentMethods.length) := by
    rcases hm with h | h
    · exact fun hc => h hc.1
    · intro hc
      rw [h] at hc
      exact absurd hc.2 (by simp)
  simp only [if_neg h1, if_neg h2]
  simp

/-- C5 witness: a failed deposit with the non-empty message "boom" surfaces
"boom", does not invoke the success callback, and clears the processing flag. -/
theorem C5_witness :
    (handleSubmit envCallbacks stateAmount5 (DepositOutcome.fail (some "boom"))).settled.error =
      some "boom" ∧
    Ev.successCb 5 ∉ (handleSubmit envCallbacks stateAmount5
      (DepositOutcome.fail (some "boom"))).events ∧
    (handleSubmit envCallbacks stateAmount5
      (DepositOutcome.fail (some "boom"))).settled.isProcessing = false := by
  obtain ⟨h1, h2, _, h4⟩ :=
    C5_failure envCallbacks stateAmount5 5 (some "boom") (by decide) (by decide) (Or.inr rfl)
  exact ⟨h1, h2 5, h4⟩

/-- C5 counterexample: a failure whose message is present but empty is surfaced
as the generic fallback, not as the (empty) failure message the claim, read
literally, demands. -/
theorem C5_counterexample :
    (handleSubmit envNoMethods stateAmount5 (DepositOutcome.fail (some ""))).events.head? =
      some (Ev.depositCall 5 "") ∧
    (handleSubmit envNoMethods stateAmount5 (DepositOutcome.fail (some ""))).settled.error =
      some "deposit_error" ∧
    (handleSubmit envNoMethods stateAmount5 (DepositOutcome.fail (some ""))).settled.error ≠
      some "" := by decide

/-- C6: after every submit resolves — by validation abort, deposit success, or
deposit failure — the processing flag is false, so the processing and success
flags are never simultaneously true, and the flag also stays false after the
scheduled reset fires. -/
theorem C6_processing_cleared (env : Env) (st : FormState) (outcome : DepositOutcome) :
    (handleSubmit env st outcome).settled.isProcessing = false ∧
    ¬ ((handleSubmit env st outcome).settled.isProcessing = true ∧
       (handleSubmit env st outcome).settled.success = true) ∧
    (handleSubmit env st outcome).afterTimer.isProcessing = false := by
  obtain ⟨h1, h2⟩ := handleSubmit_not_processing env st outcome
  refine ⟨h1, ?_, h2⟩
  intro hc
  rw [h1] at hc
  exact absurd hc.1 (by simp)

/-- C7 (amended): the handler itself performs no processing-flag check — a direct
invocation while processing runs the normal submit sequence — but the submit
control is disabled whenever the processing flag is true, which is what prevents
user-initiated submission while a deposit is in flight. -/
theorem C7_disabled_while_processing (st : FormState) (h : st.isProcessing = true) :
    submitDisabled st = true := by
  unfold submitDisabled
  rw [h]
  rfl

/-- C7 witness: the submit control is disabled in a concrete processing state. -/
theorem C7_witness : submitDisabled stateProcessing = true :=
  C7_disabled_while_processing stateProcessing rfl

/-- C7 counterexample: invoking the handler in a processing state with a stale
error and a valid amount is not a no-op: the deposit operation is invoked, the
stale error is cleared, and the state changes. -/
theorem C7_counterexample :
    stateProcessing.isProcessing = true ∧
    (handleSubmit envNoMethods stateProcessing DepositOutcome.ok).events ≠ [] ∧
    (handleSubmit envNoMethods stateProcessing DepositOutcome.ok).settled.error ≠
      stateProcessing.error ∧
    (handleSubmit envNoMethods stateProcessing DepositOutcome.ok).settled ≠
      stateProcessing := by decide

/-- C8 (amended): the submit control is disabled exactly when the processing flag
is true, or the amount text is empty, or the amount parses to a number that is not
greater than zero.  A non-empty amount text whose parse is `NaN` (such as ".")
leaves the control enabled, because `NaN <= 0` is false in JavaScript. -/
theorem C8_disabled_iff (st : FormState) :
    submitDisabled st = true ↔
      st.isProcessing = true ∨ st.amount = "" ∨
        ∃ q : ℚ, parseAmount st.amount = some q ∧ q ≤ 0 := by
  unfold submitDisabled
  cases hp : parseAmount st.amount with
  | none => simp
  | some q =>
    simp only [Bool.or_eq_true, beq_iff_eq, decide_eq_true_eq, Option.some.injEq]
    constructor
    · rintro ((h | h) | h)
      · exact Or.inl h
      · exact Or.inr (Or.inl h)
      · exact Or.inr (Or.inr ⟨q, rfl, h⟩)
    · rintro (h | h | ⟨q2, hq2, h⟩)
      · exact Or.inl (Or.inl h)
      · exact Or.inl (Or.inr h)
      · cases hq2
        exact Or.inr h

/-- C8 counterexample: with amount text "." the parse is `NaN`, hence not greater
than zero, so the claim demands a disabled control; the rendered control is
enabled. -/
theorem C8_counterexample :
    submitDisabled stateDotAmount = false ∧
    stateDotAmount.amount ≠ "" ∧
    stateDotAmount.isProcessing = false ∧
    parseAmount stateDotAmount.amount = none := by decide

/-- C9: `handleAmountChange` is idempotent under repeated identical raw input:
feeding the same raw input to the result of a first application yields the same
amount text as the first application alone. -/
theorem C9_idempotent (cur raw : String) :
    handleAmountChange (handleAmountChange cur raw) raw = handleAmountChange cur raw := by
  rw [handleAmountChange_eq cur raw, handleAmountChange_eq]
  by_cases h : 1 < (stripAmount raw).count '.' ∨
      2 < (((stripAmount raw).dropWhile (· != '.')).tail).length
  · rw [if_pos h]
  · rw [if_neg h, if_neg h]

/-- C10: in every reachable state with an empty payment-method list and an amount
parsing to a positive number, submit raises no method-required error — the error
after settling is none on success and the failure-derived message on failure — and
invokes the deposit operation with the empty-string method id as its second
argument. -/
theorem C10_empty_methods (env : Env) (st : FormState) (outcome : DepositOutcome) (q : ℚ)
    (hr : Reachable env st) (hm : env.paymentMethods = [])
    (hq : parseAmount st.amount = some q) (hpos : 0 < q) :
    (handleSubmit env st outcome).events.head? = some (Ev.depositCall q "") ∧
    (handleSubmit env st outcome).settled.error =
      (match outcome with
       | DepositOutcome.ok => none
       | DepositOutcome.fail msg => some (failureMessage env msg)) := by
  have hsel := reachable_selected_empty env hm st hr
  unfold handleSubmit
  rw [hq]
  have h1 : ¬ q ≤ 0 := not_le.mpr hpos
  have h2 : ¬ (st.selectedMethodId = "" ∧ 0 < env.paymentMethods.length) := by
    intro hc
    rw [hm] at hc
    exact absurd hc.2 (by simp)
  simp only [if_neg h1, if_neg h2]
  cases outcome <;> simp [hsel]

/-- C10 witness: from the mount state with no methods, typing "5" reaches a state
from which submit calls the deposit operation with (5, ""). -/
theorem C10_witness :
    (handleSubmit envNoMethods stateAmount5 DepositOutcome.ok).events.head? =
      some (Ev.depositCall 5 "") ∧
    (handleSubmit envNoMethods stateAmount5 DepositOutcome.ok).settled.error = none := by
  have hst : ({ initState envNoMethods with
      amount := handleAmountChange (initState envNoMethods).amount "5" } : FormState) =
      stateAmount5 := by decide
  have hr : Reachable envNoMethods stateAmount5 :=
    hst ▸ Reachable.input (initState envNoMethods) "5" Reachable.init rfl rfl
  exact C10_empty_methods envNoMethods stateAmount5 DepositOutcome.ok 5 hr rfl
    (by decide) (by decide)

end DepositBox
